import Mathlib

/-!
Verification of the request/response engine of `http_server.py` (a minimal
HTTP/1.1 GET server).  Python strings are modelled as `List Char`, byte
strings as `List Nat`; the socket and filesystem collaborators are modelled
as explicit function parameters (`isfile`, `fdata`) and the current time as
an explicit `date` string.  Each `send`-ing handler is embedded as a pure
function returning the pair (bytes sent on the socket, returned status code).
-/

namespace HS

/-- Character list of a string literal; used to transcribe Python string
literals. -/
def strLit (s : String) : List Char := s.data

/-- Python `str.isspace` / the whitespace set used by `str.split()` with no
separator: tab through carriage return, the ASCII separator controls,
space, and the Unicode space characters. -/
def pyIsSpace (c : Char) : Bool :=
  let n := c.toNat
  decide ((9 ≤ n ∧ n ≤ 13) ∨ (28 ≤ n ∧ n ≤ 31) ∨ n = 32 ∨ n = 133 ∨ n = 160 ∨
    n = 5760 ∨ (8192 ≤ n ∧ n ≤ 8202) ∨ n = 8232 ∨ n = 8233 ∨ n = 8239 ∨
    n = 8287 ∨ n = 12288)

/-- Python `request.split('\r\n')[0]`: the prefix of the text before the
first CR LF pair (the whole text when there is none). -/
def firstLine : List Char → List Char
  | [] => []
  | c :: rest =>
    if c = '\r' && List.isPrefixOf ['\n'] rest then []
    else c :: firstLine rest

/-- Helper for `pySplitWs`: accumulates the current (reversed) token. -/
def pySplitAux : List Char → List Char → List (List Char)
  | [], acc => if acc = [] then [] else [acc.reverse]
  | c :: rest, acc =>
    if pyIsSpace c then
      if acc = [] then pySplitAux rest []
      else acc.reverse :: pySplitAux rest []
    else pySplitAux rest (c :: acc)

/-- Python `str.split()` with no separator: maximal runs of non-whitespace
characters, with no empty tokens. -/
def pySplitWs (s : List Char) : List (List Char) := pySplitAux s []

/-- Helper for `pySplitOn`: accumulates the current (reversed) piece. -/
def pySplitOnAux (sep : Char) : List Char → List Char → List (List Char)
  | [], acc => [acc.reverse]
  | c :: rest, acc =>
    if c = sep then acc.reverse :: pySplitOnAux sep rest []
    else pySplitOnAux sep rest (c :: acc)

/-- Python `str.split(sep)` for a one-character separator: splits at every
occurrence and keeps empty pieces, so the result is always non-empty. -/
def pySplitOn (sep : Char) (s : List Char) : List (List Char) :=
  pySplitOnAux sep s []

/-- Python `lst[-1]` on a split result (split results are never empty). -/
def lastD (ls : List (List Char)) : List Char := ls.getLastD []

/-- Python substring containment `needle in hay` (also used on byte
strings): some suffix of `hay` starts with `needle`. -/
def containsSub [BEq α] (needle : List α) : List α → Bool
  | [] => needle.isEmpty
  | c :: rest => List.isPrefixOf needle (c :: rest) || containsSub needle rest

/-- Python `s.strip(ch)` for a one-character argument: removes every leading
and every trailing occurrence of `ch`. -/
def stripAll (ch : Char) (s : List Char) : List Char :=
  (((s.dropWhile (· == ch)).reverse.dropWhile (· == ch))).reverse

/-- The decimal digit character for `d < 10` (`9` is also returned for the
out-of-range arguments, which never occur). -/
def digitChar (d : Nat) : Char :=
  if d = 0 then '0' else if d = 1 then '1' else if d = 2 then '2'
  else if d = 3 then '3' else if d = 4 then '4' else if d = 5 then '5'
  else if d = 6 then '6' else if d = 7 then '7' else if d = 8 then '8'
  else '9'

/-- Digit accumulator for `natToDigits`; the fuel bounds the recursion depth
structurally (any fuel of at least the digit count gives all digits). -/
def natToDigitsAux : Nat → Nat → List Char
  | 0, _ => []
  | fuel + 1, n =>
    if n = 0 then []
    else natToDigitsAux fuel (n / 10) ++ [digitChar (n % 10)]

/-- Python `str(n)` for a non-negative integer: its decimal digits
(`n` itself is always enough fuel, since `n < 10 ^ n`). -/
def natToDigits (n : Nat) : List Char :=
  if n = 0 then ['0'] else natToDigitsAux n n

/-- The Unicode decimal-digit value consulted by Python `str.isnumeric` and
`int`, restricted to the code-point blocks used in this development: the
ASCII digits and the Arabic-Indic digits U+0660–U+0669.  On these blocks
(and on every other character below U+0080) it agrees exactly with the
Unicode database; theorems that quantify over arbitrary request text
restrict it to this domain with `modelledChar`. -/
def decDigitVal (c : Char) : Option Nat :=
  let n := c.toNat
  if 48 ≤ n ∧ n ≤ 57 then some (n - 48)
  else if 1632 ≤ n ∧ n ≤ 1641 then some (n - 1632)
  else none

/-- The characters on which this development's model of the Unicode numeric
properties is exact: the ASCII range and the Arabic-Indic digit block. -/
def modelledChar (c : Char) : Bool :=
  decide (c.toNat < 128 ∨ (1632 ≤ c.toNat ∧ c.toNat ≤ 1641))

/-- Python `str.isnumeric` (restricted to `modelledChar` inputs): non-empty
and every character carries a numeric value. -/
def pyIsNumeric (s : List Char) : Bool :=
  !s.isEmpty && s.all (fun c => (decDigitVal c).isSome)

/-- Python `int(s)` on a string of decimal-digit characters (the only use
site guards with `pyIsNumeric`). -/
def pyInt (s : List Char) : Nat :=
  s.foldl (fun a c => 10 * a + (decDigitVal c).getD 0) 0

/-- UTF-8 bytes of one character, as produced by Python `str.encode()`. -/
def utf8Bytes (c : Char) : List Nat :=
  let n := c.toNat
  if n < 128 then [n]
  else if n < 2048 then [192 + n / 64, 128 + n % 64]
  else if n < 65536 then [224 + n / 4096, 128 + n / 64 % 64, 128 + n % 64]
  else [240 + n / 262144, 128 + n / 4096 % 64, 128 + n / 64 % 64, 128 + n % 64]

/-- Python `str.encode()`: UTF-8 bytes of the string. -/
def encode : List Char → List Nat
  | [] => []
  | c :: s => utf8Bytes c ++ encode s

/-! ### Constants of `http_server.py` -/

def CLOSE_SERVER_STATUS_CODE : Nat := 1

def DEFAULT_URL : List Char := strLit "webroot/index.html"

def REDIRECTION_DICTIONARY : List (List Char × List Char) :=
  [(strLit "webroot/home.html", strLit "webroot/index.html"),
   (strLit "home", strLit "webroot/index.html"),
   (strLit "home.html", strLit "webroot/index.html"),
   (strLit "webroot/home", strLit "webroot/index.html")]

/-- Python `url in REDIRECTION_DICTIONARY` / `REDIRECTION_DICTIONARY[url]`. -/
def lookupRedirect (url : List Char) : Option (List Char) :=
  (REDIRECTION_DICTIONARY.find? (fun kv => kv.1 == url)).map (fun kv => kv.2)

def STATUS_CODE (n : Nat) : List Char :=
  if n = 200 then strLit "HTTP/1.1 200 OK\r\n"
  else if n = 404 then strLit "HTTP/1.1 404 Not Found\r\n"
  else if n = 302 then strLit "HTTP/1.1 302 Moved Temporarily\r\n"
  else if n = 500 then strLit "HTTP/1.1 500 Internal Server Error\r\n"
  else []

/-! ### The server functions (one Lean definition per Python function) -/

/-- Embeds `validate_http_request(request)`: checks that the first CR LF-terminated
line starts with the characters `GET`, splits into exactly three
whitespace-separated tokens, and that the third token contains `HTTP`;
returns the flag and the second token (the url). -/
def validate_http_request (request : List Char) : Bool × List Char :=
  let first_line := firstLine request
  if !(List.isPrefixOf (strLit "GET") first_line) then (false, [])
  else
    let split_request := pySplitWs first_line
    if split_request.length ≠ 3 then (false, [])
    else if !(containsSub (strLit "HTTP") (split_request.getD 2 [])) then (false, [])
    else (true, split_request.getD 1 [])

/-- The `file_type` computed inside `get_http_header`:
`'html' if url == '' else url.split('.')[-1]`. -/
def fileTypeOf (url : List Char) : List Char :=
  if url = [] then strLit "html" else lastD (pySplitOn '.' url)

/-- The file types for which `get_http_header` emits a Content-Type line
(and hence terminates the header block with a blank line). -/
def recognizedType (t : List Char) : Bool :=
  t == strLit "html" || t == strLit "txt" || t == strLit "css" ||
  t == strLit "js" || t == strLit "jpg" || t == strLit "png" ||
  t == strLit "ico" || t == strLit "gif"

/-- Embeds `get_http_header(content_length, url='')`; the `Date:` value produced by
`datetime.datetime.now().strftime(...)` is passed in as the explicit
parameter `date`. -/
def get_http_header (date : List Char) (content_length : Nat)
    (url : List Char := []) : List Char :=
  let http_header := strLit "Date: " ++ date ++ strLit "\r\n" ++
    strLit "Content-Length: " ++ natToDigits content_length ++ strLit "\r\n"
  let accept_bytes := strLit "Accept-Ranges: bytes\r\n\r\n"
  let file_type := fileTypeOf url
  if file_type = strLit "html" ∨ file_type = strLit "txt" then
    http_header ++ strLit "Content-Type: text/html\r\n\r\n"
  else if file_type = strLit "css" then
    http_header ++ strLit "Content-Type: text/css\r\n\r\n"
  else if file_type = strLit "js" then
    http_header ++ strLit "Content-Type: text/javascript\r\n\r\n"
  else if file_type = strLit "jpg" then
    http_header ++ strLit "Content-Type: image/jpeg\r\n" ++ accept_bytes
  else if file_type = strLit "png" then
    http_header ++ strLit "Content-Type: image/png\r\n" ++ accept_bytes
  else if file_type = strLit "ico" then
    http_header ++ strLit "Content-Type: image/icon\r\n" ++ accept_bytes
  else if file_type = strLit "gif" then
    http_header ++ strLit "Content-Type: image/gif\r\n" ++ accept_bytes
  else http_header

/-- Embeds `not_found(client_socket)`: bytes sent and returned status. -/
def not_found (date : List Char) : List Nat × Nat :=
  let massage := strLit "404 Not Found\r\n"
  let http_response :=
    STATUS_CODE 404 ++ get_http_header date massage.length ++ massage
  (encode http_response, 404)

/-- Embeds `ok(client_socket, data=b'', url='')`: when `url` is non-empty and no
data was passed, the file content is read through the resolver `fdata`. -/
def ok (fdata : List Char → List Nat) (date : List Char)
    (data : List Nat := []) (url : List Char := []) : List Nat × Nat :=
  let data := if url ≠ [] ∧ data = [] then fdata url else data
  let http_header := get_http_header date data.length url
  let http_response := STATUS_CODE 200 ++ http_header
  (encode http_response ++ data, 200)

/-- Embeds `moved_temporarily(client_socket, url)`: `url` is a key of the
redirection dictionary; falls back to `not_found` when the target is not a
file at the resolver `isfile`. -/
def moved_temporarily (isfile : List Char → Bool) (fdata : List Char → List Nat)
    (date : List Char) (url : List Char) : List Nat × Nat :=
  let target := (lookupRedirect url).getD []
  if !isfile target then not_found date
  else
    let data := fdata target
    let location := strLit "Location: http://" ++ target ++ strLit "\r\n"
    let http_header := get_http_header date data.length target
    let http_response := STATUS_CODE 302 ++ location ++ http_header
    (encode http_response ++ data, 302)

/-- Embeds `internal_server_error(client_socket, message)`. -/
def internal_server_error (date message : List Char) : List Nat × Nat :=
  let http_response :=
    STATUS_CODE 500 ++ get_http_header date message.length ++ message
  (encode http_response, 500)

/-- The text `str((int(height) * int(width)) / 2)` with a trailing `.0`
removed.  The source computes this with Python binary64 float division;
this model uses exact arithmetic, which coincides with the source whenever
the product is below 2^53 and the quotient below 10^16 (there the float
division is exact and `str` renders plain decimal digits); every concrete
evaluation in this file stays far inside that range. -/
def areaStr (h w : Nat) : List Char :=
  let p := h * w
  if p % 2 = 0 then natToDigits (p / 2)
  else natToDigits (p / 2) ++ strLit ".5"

/-- Embeds `calculate_area(client_socket, request)`: `request` is the final path
segment carrying the query string.  The `ok` call passes no url, so the
file resolver is never consulted there (the empty resolver is supplied). -/
def calculate_area (date : List Char) (request : List Char) : List Nat × Nat :=
  let parameters := pySplitOn '&' (lastD (pySplitOn '?' request))
  if parameters.length ≠ 2 then
    internal_server_error date
      (strLit "Many or less parameters, expected 2, got " ++
        natToDigits parameters.length)
  else
    let height := lastD (pySplitOn '=' (parameters.getD 0 []))
    let width := lastD (pySplitOn '=' (parameters.getD 1 []))
    if !pyIsNumeric height || !pyIsNumeric width then
      internal_server_error date (strLit "Not numeric value for height or width")
    else
      ok (fun _ => []) date (encode (areaStr (pyInt height) (pyInt width)))

/-- Line 113 of the source: `DEFAULT_URL if resource == '' or resource == '/'
else resource.strip('/')`. -/
def normalize_url (resource : List Char) : List Char :=
  if resource = [] ∨ resource = ['/'] then DEFAULT_URL
  else stripAll '/' resource

/-- Lines 118–119 of the source: prepend `webroot/` when absent. -/
def prefixed_url (url : List Char) : List Char :=
  if List.isPrefixOf (strLit "webroot/") url then url
  else strLit "webroot/" ++ url

/-- Embeds `url.split("/")[-1]`. -/
def lastSegment (url : List Char) : List Char := lastD (pySplitOn '/' url)

/-- Embeds `handle_client_request(resource, client_socket)`: the pair of bytes sent
and the returned code (`CLOSE_SERVER_STATUS_CODE = 1` for the terminate
branch, which sends nothing, and the HTTP status otherwise). -/
def handle_client_request (isfile : List Char → Bool)
    (fdata : List Char → List Nat) (date : List Char)
    (resource : List Char) : List Nat × Nat :=
  let url := normalize_url resource
  if List.isSuffixOf (strLit "exit") url then ([], CLOSE_SERVER_STATUS_CODE)
  else
    let url := prefixed_url url
    if (lookupRedirect url).isSome then moved_temporarily isfile fdata date url
    else
      let server_function := lastSegment url
      if containsSub (strLit "calculate-area") server_function then
        calculate_area date server_function
      else if !isfile url then not_found date
      else ok fdata date [] url

/-! ### Analysis devices (formalization of spec vocabulary, not source code) -/

/-- Splits a byte stream at the first occurrence of CR LF CR LF: the first
component is the header block including its blank-line terminator, the
second is the body that follows it.  When no terminator occurs the whole
stream is header and the body is empty. -/
def splitHB : List Nat → List Nat × List Nat
  | [] => ([], [])
  | b :: rest =>
    if b = 13 && List.isPrefixOf [10, 13, 10] rest then
      ([13, 10, 13, 10], rest.drop 3)
    else
      let p := splitHB rest
      (b :: p.1, p.2)

/-- Here `linesBlock [l1, …, ln]` is `l1 CRLF l2 CRLF … ln CRLF CRLF`: a header
block of the given lines followed by the blank-line terminator. -/
def linesBlock : List (List Nat) → List Nat
  | [] => [13, 10]
  | l :: ls => l ++ 13 :: 10 :: linesBlock ls

/-- Normalization as claimed by the spec sentence for C4: strip exactly one
leading `/` (default-substitution as in the source). -/
def claimNormalize (resource : List Char) : List Char :=
  if resource = [] ∨ resource = ['/'] then DEFAULT_URL
  else match resource with
    | '/' :: rest => rest
    | other => other

/-! ### Basic lemmas about the helpers -/

theorem containsSub_of_isPrefixOf [BEq α] [LawfulBEq α] {needle l : List α}
    (h : List.isPrefixOf needle l = true) : containsSub needle l = true := by
  cases l with
  | nil =>
    have : needle = [] := by
      cases needle with
      | nil => rfl
      | cons a t => simp [List.isPrefixOf] at h
    simp [containsSub, this]
  | cons a t => simp [containsSub, h]

theorem containsSub_append_left [BEq α] [LawfulBEq α] {needle t : List α}
    (h : containsSub needle t = true) (s : List α) :
    containsSub needle (s ++ t) = true := by
  induction s with
  | nil => simpa using h
  | cons a s ih => simp [containsSub, ih]

theorem isPrefixOf_append_right [BEq α] [LawfulBEq α] (s t : List α) :
    List.isPrefixOf s (s ++ t) = true := by
  induction s with
  | nil => simp [List.isPrefixOf]
  | cons a s ih => simpa [List.isPrefixOf] using ih

theorem containsSub_middle [BEq α] [LawfulBEq α] (s needle t : List α) :
    containsSub needle (s ++ needle ++ t) = true := by
  rw [List.append_assoc]
  exact containsSub_append_left
    (containsSub_of_isPrefixOf (isPrefixOf_append_right needle t)) s

theorem encode_append (a b : List Char) :
    encode (a ++ b) = encode a ++ encode b := by
  induction a with
  | nil => rfl
  | cons c a ih => simp [encode, ih]

theorem utf8Bytes_ne_13 {c : Char} (hc : c.toNat ≠ 13) :
    ∀ b ∈ utf8Bytes c, b ≠ 13 := by
  intro b hb
  simp only [utf8Bytes] at hb
  split at hb
  · simp at hb; omega
  · split at hb
    · simp at hb; rcases hb with h | h <;> omega
    · split at hb
      · simp at hb; rcases hb with h | h | h <;> omega
      · simp at hb; rcases hb with h | h | h | h <;> omega

theorem encode_ne_13 {s : List Char} (hs : ∀ c ∈ s, c.toNat ≠ 13) :
    ∀ b ∈ encode s, b ≠ 13 := by
  induction s with
  | nil => intro b hb; simp [encode] at hb
  | cons c s ih =>
    intro b hb
    simp only [encode, List.mem_append] at hb
    rcases hb with hb | hb
    · exact utf8Bytes_ne_13 (hs c (by simp)) b hb
    · exact ih (fun d hd => hs d (by simp [hd])) b hb

theorem encode_ascii_length {s : List Char} (hs : ∀ c ∈ s, c.toNat < 128) :
    (encode s).length = s.length := by
  induction s with
  | nil => rfl
  | cons c s ih =>
    have hc : c.toNat < 128 := hs c (by simp)
    simp [encode, utf8Bytes, hc, ih (fun d hd => hs d (by simp [hd]))]

theorem digitChar_range (d : Nat) :
    48 ≤ (digitChar d).toNat ∧ (digitChar d).toNat ≤ 57 := by
  unfold digitChar
  repeat' split
  all_goals decide

theorem natToDigitsAux_range (fuel : Nat) :
    ∀ n, ∀ c ∈ natToDigitsAux fuel n, 48 ≤ c.toNat ∧ c.toNat ≤ 57 := by
  induction fuel with
  | zero => intro n c hc; simp [natToDigitsAux] at hc
  | succ fuel ih =>
    intro n c hc
    simp only [natToDigitsAux] at hc
    split at hc
    · simp at hc
    · rcases List.mem_append.1 hc with hc | hc
      · exact ih (n / 10) c hc
      · simp at hc; subst hc; exact digitChar_range (n % 10)

theorem natToDigits_range (n : Nat) :
    ∀ c ∈ natToDigits n, 48 ≤ c.toNat ∧ c.toNat ≤ 57 := by
  intro c hc
  unfold natToDigits at hc
  split at hc
  · simp at hc; subst hc; exact ⟨by decide, by decide⟩
  · exact natToDigitsAux_range n n c hc

theorem natToDigits_ne_nil (n : Nat) : natToDigits n ≠ [] := by
  unfold natToDigits
  split
  · simp
  · rename_i h
    cases n with
    | zero => exact absurd rfl h
    | succ m => simp [natToDigitsAux]

/-! ### Reduction lemmas for `splitHB` -/

theorem splitHB_cons_ne {b : Nat} (hb : b ≠ 13) (l : List Nat) :
    splitHB (b :: l) = (b :: (splitHB l).1, (splitHB l).2) := by
  simp [splitHB, hb]

theorem splitHB_chunk {bs : List Nat} (hbs : ∀ b ∈ bs, b ≠ 13) (l : List Nat) :
    splitHB (bs ++ l) = (bs ++ (splitHB l).1, (splitHB l).2) := by
  induction bs with
  | nil => simp
  | cons b bs ih =>
    have hb : b ≠ 13 := hbs b (by simp)
    rw [List.cons_append, splitHB_cons_ne hb,
      ih (fun d hd => hbs d (by simp [hd]))]
    simp

theorem splitHB_crlf {b : Nat} (hb : b ≠ 13) (l : List Nat) :
    splitHB (13 :: 10 :: b :: l) =
      (13 :: 10 :: (splitHB (b :: l)).1, (splitHB (b :: l)).2) := by
  have h1 : splitHB (13 :: 10 :: b :: l) =
      (13 :: (splitHB (10 :: b :: l)).1, (splitHB (10 :: b :: l)).2) := by
    simp [splitHB, List.isPrefixOf, Ne.symm hb]
  rw [h1, splitHB_cons_ne (by decide) (b :: l)]

theorem splitHB_term (l : List Nat) :
    splitHB (13 :: 10 :: 13 :: 10 :: l) = ([13, 10, 13, 10], l) := by
  simp [splitHB, List.isPrefixOf]

/-- The master framing lemma: a well-formed header block (non-empty lines,
none containing a CR byte) followed by arbitrary body bytes is split by
`splitHB` exactly at its own blank-line terminator. -/
theorem splitHB_linesBlock :
    ∀ (lines : List (List Nat)), lines ≠ [] →
      (∀ l ∈ lines, l ≠ [] ∧ ∀ b ∈ l, b ≠ 13) →
      ∀ data, splitHB (linesBlock lines ++ data) = (linesBlock lines, data) := by
  intro lines
  induction lines with
  | nil => intro h; exact absurd rfl h
  | cons l ls ih =>
    intro _ hlines data
    obtain ⟨hl, hl13⟩ := hlines l (by simp)
    cases ls with
    | nil =>
      have : linesBlock [l] ++ data = l ++ (13 :: 10 :: 13 :: 10 :: data) := by
        simp [linesBlock]
      rw [this, splitHB_chunk hl13, splitHB_term]
      simp [linesBlock]
    | cons l2 ls2 =>
      obtain ⟨hl2, hl2ne⟩ := hlines l2 (by simp)
      obtain ⟨b, t, hq⟩ := List.exists_cons_of_ne_nil hl2
      subst hq
      have hb : b ≠ 13 := hl2ne b (by simp)
      have hshape : linesBlock (l :: (b :: t) :: ls2) ++ data =
          l ++ (13 :: 10 :: b :: (t ++ 13 :: 10 :: linesBlock ls2 ++ data)) := by
        simp [linesBlock]
      have hrest : b :: (t ++ 13 :: 10 :: linesBlock ls2 ++ data) =
          linesBlock ((b :: t) :: ls2) ++ data := by
        simp [linesBlock]
      rw [hshape, splitHB_chunk hl13, splitHB_crlf hb, hrest,
        ih (by simp) (fun x hx => hlines x (by simp [hx])) data]
      simp [linesBlock]

/-! ### Char-level line structure of the produced responses -/

/-- Here `linesStr [l1, …, ln]` is the text `l1 CRLF … ln CRLF CRLF`; its UTF-8
encoding is `linesBlock` of the encoded lines. -/
def linesStr : List (List Char) → List Char
  | [] => strLit "\r\n"
  | l :: ls => l ++ strLit "\r\n" ++ linesStr ls

/-- A header line fit for the framing lemma: non-empty, no CR byte. -/
def goodLine (l : List Nat) : Prop := l ≠ [] ∧ ∀ b ∈ l, b ≠ 13

theorem encode_crlf : encode (strLit "\r\n") = [13, 10] := by decide

theorem encode_linesStr (ls : List (List Char)) :
    encode (linesStr ls) = linesBlock (ls.map encode) := by
  induction ls with
  | nil => rfl
  | cons l ls ih => simp [linesStr, linesBlock, encode_append, encode_crlf, ih]

theorem utf8Bytes_ne_nil (c : Char) : utf8Bytes c ≠ [] := by
  simp only [utf8Bytes]
  repeat' split
  all_goals simp

theorem encode_ne_nil {s : List Char} (h : s ≠ []) : encode s ≠ [] := by
  cases s with
  | nil => exact absurd rfl h
  | cons c t => simp [encode, utf8Bytes_ne_nil]

theorem goodLine_encode {s : List Char} (h1 : s ≠ [])
    (h2 : ∀ c ∈ s, c.toNat ≠ 13) : goodLine (encode s) :=
  ⟨encode_ne_nil h1, encode_ne_13 h2⟩

theorem noCR_append {s t : List Char} (hs : ∀ c ∈ s, c.toNat ≠ 13)
    (ht : ∀ c ∈ t, c.toNat ≠ 13) : ∀ c ∈ s ++ t, c.toNat ≠ 13 := by
  intro c hc
  rcases List.mem_append.1 hc with hc | hc
  · exact hs c hc
  · exact ht c hc

theorem natToDigits_noCR (n : Nat) : ∀ c ∈ natToDigits n, c.toNat ≠ 13 := by
  intro c hc
  have := natToDigits_range n c hc
  omega

/-- The Date line of every header: non-empty and CR-free whenever the
date text is CR-free. -/
theorem dateLine_good {date : List Char} (hdate : ∀ c ∈ date, c.toNat ≠ 13) :
    strLit "Date: " ++ date ≠ [] ∧
      ∀ c ∈ strLit "Date: " ++ date, c.toNat ≠ 13 := by
  refine ⟨by simp [strLit], noCR_append ?_ hdate⟩
  decide

/-- The Content-Length line of every header: non-empty and CR-free. -/
theorem clLine_good (n : Nat) :
    strLit "Content-Length: " ++ natToDigits n ≠ [] ∧
      ∀ c ∈ strLit "Content-Length: " ++ natToDigits n, c.toNat ≠ 13 := by
  refine ⟨by simp [strLit], noCR_append ?_ (natToDigits_noCR n)⟩
  decide

/-- The header `get_http_header` for a recognized file type is exactly a Date line, a
Content-Length line and one or two fixed trailing lines, each terminated by
CR LF, plus the final blank line. -/
theorem get_http_header_lines (date : List Char) (n : Nat) (url : List Char)
    (hrec : recognizedType (fileTypeOf url) = true) :
    ∃ ct : List (List Char),
      (∀ l ∈ ct, l ≠ [] ∧ ∀ c ∈ l, c.toNat ≠ 13) ∧
      get_http_header date n url =
        linesStr ((strLit "Date: " ++ date) ::
          (strLit "Content-Length: " ++ natToDigits n) :: ct) := by
  simp only [recognizedType, Bool.or_eq_true, beq_iff_eq] at hrec
  rcases hrec with (((((((h | h) | h) | h) | h) | h) | h) | h)
  · refine ⟨[strLit "Content-Type: text/html"], by decide, ?_⟩
    simp only [get_http_header, h]
    rw [if_pos (Or.inl trivial)]
    rw [show strLit "Content-Type: text/html\r\n\r\n" =
      strLit "Content-Type: text/html" ++ strLit "\r\n" ++ strLit "\r\n" by decide]
    simp [linesStr, List.append_assoc]
  · refine ⟨[strLit "Content-Type: text/html"], by decide, ?_⟩
    simp only [get_http_header, h]
    rw [if_pos (Or.inr trivial)]
    rw [show strLit "Content-Type: text/html\r\n\r\n" =
      strLit "Content-Type: text/html" ++ strLit "\r\n" ++ strLit "\r\n" by decide]
    simp [linesStr, List.append_assoc]
  · refine ⟨[strLit "Content-Type: text/css"], by decide, ?_⟩
    simp only [get_http_header, h]
    rw [if_neg (by decide), if_pos trivial]
    rw [show strLit "Content-Type: text/css\r\n\r\n" =
      strLit "Content-Type: text/css" ++ strLit "\r\n" ++ strLit "\r\n" by decide]
    simp [linesStr, List.append_assoc]
  · refine ⟨[strLit "Content-Type: text/javascript"], by decide, ?_⟩
    simp only [get_http_header, h]
    rw [if_neg (by decide), if_neg (by decide), if_pos trivial]
    rw [show strLit "Content-Type: text/javascript\r\n\r\n" =
      strLit "Content-Type: text/javascript" ++ strLit "\r\n" ++ strLit "\r\n" by decide]
    simp [linesStr, List.append_assoc]
  · refine ⟨[strLit "Content-Type: image/jpeg", strLit "Accept-Ranges: bytes"],
      by decide, ?_⟩
    simp only [get_http_header, h]
    rw [if_neg (by decide), if_neg (by decide), if_neg (by decide), if_pos trivial]
    rw [show strLit "Content-Type: image/jpeg\r\n" =
      strLit "Content-Type: image/jpeg" ++ strLit "\r\n" by decide]
    rw [show strLit "Accept-Ranges: bytes\r\n\r\n" =
      strLit "Accept-Ranges: bytes" ++ strLit "\r\n" ++ strLit "\r\n" by decide]
    simp [linesStr, List.append_assoc]
  · refine ⟨[strLit "Content-Type: image/png", strLit "Accept-Ranges: bytes"],
      by decide, ?_⟩
    simp only [get_http_header, h]
    rw [if_neg (by decide), if_neg (by decide), if_neg (by decide),
      if_neg (by decide), if_pos trivial]
    rw [show strLit "Content-Type: image/png\r\n" =
      strLit "Content-Type: image/png" ++ strLit "\r\n" by decide]
    rw [show strLit "Accept-Ranges: bytes\r\n\r\n" =
      strLit "Accept-Ranges: bytes" ++ strLit "\r\n" ++ strLit "\r\n" by decide]
    simp [linesStr, List.append_assoc]
  · refine ⟨[strLit "Content-Type: image/icon", strLit "Accept-Ranges: bytes"],
      by decide, ?_⟩
    simp only [get_http_header, h]
    rw [if_neg (by decide), if_neg (by decide), if_neg (by decide),
      if_neg (by decide), if_neg (by decide), if_pos trivial]
    rw [show strLit "Content-Type: image/icon\r\n" =
      strLit "Content-Type: image/icon" ++ strLit "\r\n" by decide]
    rw [show strLit "Accept-Ranges: bytes\r\n\r\n" =
      strLit "Accept-Ranges: bytes" ++ strLit "\r\n" ++ strLit "\r\n" by decide]
    simp [linesStr, List.append_assoc]
  · refine ⟨[strLit "Content-Type: image/gif", strLit "Accept-Ranges: bytes"],
      by decide, ?_⟩
    simp only [get_http_header, h]
    rw [if_neg (by decide), if_neg (by decide), if_neg (by decide),
      if_neg (by decide), if_neg (by decide), if_neg (by decide), if_pos trivial]
    rw [show strLit "Content-Type: image/gif\r\n" =
      strLit "Content-Type: image/gif" ++ strLit "\r\n" by decide]
    rw [show strLit "Accept-Ranges: bytes\r\n\r\n" =
      strLit "Accept-Ranges: bytes" ++ strLit "\r\n" ++ strLit "\r\n" by decide]
    simp [linesStr, List.append_assoc]

/-- Framing: the encoding of a block of good lines followed by body bytes is
split by `splitHB` exactly at the block's blank-line terminator. -/
theorem splitHB_encode_lines (lines : List (List Char)) (data : List Nat)
    (h1 : lines ≠ []) (h2 : ∀ l ∈ lines, l ≠ [] ∧ ∀ c ∈ l, c.toNat ≠ 13) :
    splitHB (encode (linesStr lines) ++ data) =
      (linesBlock (lines.map encode), data) := by
  rw [encode_linesStr]
  apply splitHB_linesBlock
  · simp [h1]
  · intro l hl
    obtain ⟨s, hs, rfl⟩ := List.mem_map.1 hl
    obtain ⟨hs1, hs2⟩ := h2 s hs
    exact ⟨encode_ne_nil hs1, encode_ne_13 hs2⟩

/-- A line of a header block, together with its CR LF terminator, is a
substring of the block. -/
theorem linesBlock_contains (pre : List (List Nat)) (cl : List Nat)
    (rest : List (List Nat)) :
    containsSub (cl ++ [13, 10]) (linesBlock (pre ++ cl :: rest)) = true := by
  induction pre with
  | nil =>
    have : linesBlock (cl :: rest) = (cl ++ [13, 10]) ++ linesBlock rest := by
      simp [linesBlock]
    rw [List.nil_append, this]
    exact containsSub_of_isPrefixOf (isPrefixOf_append_right _ _)
  | cons a pre ih =>
    have : linesBlock ((a :: pre) ++ cl :: rest) =
        (a ++ [13, 10]) ++ linesBlock (pre ++ cl :: rest) := by
      simp [linesBlock]
    rw [this]
    exact containsSub_append_left ih _

/-- The body argument actually carried by `ok`: the file content when a url
was passed and no data, the passed data otherwise. -/
def okData (fdata : List Char → List Nat) (data : List Nat)
    (url : List Char) : List Nat :=
  if url ≠ [] ∧ data = [] then fdata url else data

theorem ok_eq (fdata : List Char → List Nat) (date : List Char)
    (data : List Nat) (url : List Char) :
    ok fdata date data url =
      (encode (STATUS_CODE 200 ++
        get_http_header date (okData fdata data url).length url) ++
        okData fdata data url, 200) := rfl

/-- The header `get_http_header` with no url (the 404, 500 and computed-result paths):
the file type defaults to html. -/
theorem get_http_header_empty (date : List Char) (n : Nat) :
    get_http_header date n [] =
      linesStr [strLit "Date: " ++ date,
        strLit "Content-Length: " ++ natToDigits n,
        strLit "Content-Type: text/html"] := by
  have hft : fileTypeOf ([] : List Char) = strLit "html" := rfl
  simp only [get_http_header, hft]
  rw [if_pos (Or.inl trivial)]
  rw [show strLit "Content-Type: text/html\r\n\r\n" =
    strLit "Content-Type: text/html" ++ strLit "\r\n" ++ strLit "\r\n" by decide]
  simp [linesStr, List.append_assoc]

theorem not_found_split (date : List Char) (hdate : ∀ c ∈ date, c.toNat ≠ 13) :
    splitHB (not_found date).1 =
      (linesBlock (List.map encode [strLit "HTTP/1.1 404 Not Found",
        strLit "Date: " ++ date,
        strLit "Content-Length: " ++ natToDigits 15,
        strLit "Content-Type: text/html"]),
       encode (strLit "404 Not Found\r\n")) := by
  have h1 : (not_found date).1 =
      encode (STATUS_CODE 404 ++ get_http_header date 15 ++
        strLit "404 Not Found\r\n") := rfl
  have h2 : STATUS_CODE 404 ++ get_http_header date 15 =
      linesStr [strLit "HTTP/1.1 404 Not Found",
        strLit "Date: " ++ date,
        strLit "Content-Length: " ++ natToDigits 15,
        strLit "Content-Type: text/html"] := by
    rw [get_http_header_empty]
    rw [show STATUS_CODE 404 =
      strLit "HTTP/1.1 404 Not Found" ++ strLit "\r\n" by decide]
    simp [linesStr, List.append_assoc]
  rw [h1, encode_append, h2]
  apply splitHB_encode_lines
  · simp
  · intro l hl
    simp only [List.mem_cons, List.mem_singleton, List.not_mem_nil, or_false] at hl
    rcases hl with rfl | rfl | rfl | rfl
    · exact ⟨by decide, by decide⟩
    · exact dateLine_good hdate
    · exact clLine_good 15
    · exact ⟨by decide, by decide⟩

theorem ise_split (date msg : List Char) (hdate : ∀ c ∈ date, c.toNat ≠ 13)
    (hmsg : ∀ c ∈ msg, c.toNat ≠ 13) :
    splitHB (internal_server_error date msg).1 =
      (linesBlock (List.map encode [strLit "HTTP/1.1 500 Internal Server Error",
        strLit "Date: " ++ date,
        strLit "Content-Length: " ++ natToDigits msg.length,
        strLit "Content-Type: text/html"]),
       encode msg) := by
  have h1 : (internal_server_error date msg).1 =
      encode (STATUS_CODE 500 ++ get_http_header date msg.length ++ msg) := rfl
  have h2 : STATUS_CODE 500 ++ get_http_header date msg.length =
      linesStr [strLit "HTTP/1.1 500 Internal Server Error",
        strLit "Date: " ++ date,
        strLit "Content-Length: " ++ natToDigits msg.length,
        strLit "Content-Type: text/html"] := by
    rw [get_http_header_empty]
    rw [show STATUS_CODE 500 =
      strLit "HTTP/1.1 500 Internal Server Error" ++ strLit "\r\n" by decide]
    simp [linesStr, List.append_assoc]
  rw [h1, encode_append, h2]
  apply splitHB_encode_lines
  · simp
  · intro l hl
    simp only [List.mem_cons, List.mem_singleton, List.not_mem_nil, or_false] at hl
    rcases hl with rfl | rfl | rfl | rfl
    · exact ⟨by decide, by decide⟩
    · exact dateLine_good hdate
    · exact clLine_good msg.length
    · exact ⟨by decide, by decide⟩

theorem ok_split (fdata : List Char → List Nat) (date : List Char)
    (data : List Nat) (url : List Char)
    (hdate : ∀ c ∈ date, c.toNat ≠ 13)
    (hrec : recognizedType (fileTypeOf url) = true) :
    ∃ ct : List (List Char),
      splitHB (ok fdata date data url).1 =
        (linesBlock (List.map encode (strLit "HTTP/1.1 200 OK" ::
          (strLit "Date: " ++ date) ::
          (strLit "Content-Length: " ++
            natToDigits (okData fdata data url).length) :: ct)),
         okData fdata data url) := by
  obtain ⟨ct, hct, hhd⟩ :=
    get_http_header_lines date (okData fdata data url).length url hrec
  refine ⟨ct, ?_⟩
  have h1 : (ok fdata date data url).1 =
      encode (STATUS_CODE 200 ++
        get_http_header date (okData fdata data url).length url) ++
        okData fdata data url := by
    rw [ok_eq]
  have h2 : STATUS_CODE 200 ++
      get_http_header date (okData fdata data url).length url =
      linesStr (strLit "HTTP/1.1 200 OK" :: (strLit "Date: " ++ date) ::
        (strLit "Content-Length: " ++
          natToDigits (okData fdata data url).length) :: ct) := by
    rw [hhd]
    rw [show STATUS_CODE 200 = strLit "HTTP/1.1 200 OK" ++ strLit "\r\n" by decide]
    simp [linesStr, List.append_assoc]
  rw [h1, h2]
  apply splitHB_encode_lines
  · simp
  · intro l hl
    simp only [List.mem_cons] at hl
    rcases hl with rfl | rfl | rfl | hl
    · exact ⟨by decide, by decide⟩
    · exact dateLine_good hdate
    · exact clLine_good _
    · exact hct l hl

theorem lookupRedirect_target {url target : List Char}
    (h : lookupRedirect url = some target) :
    target = strLit "webroot/index.html" := by
  simp only [lookupRedirect, REDIRECTION_DICTIONARY, List.find?] at h
  repeat' split at h
  all_goals simp_all

theorem moved_split (isfile : List Char → Bool) (fdata : List Char → List Nat)
    (date url target : List Char)
    (hdate : ∀ c ∈ date, c.toNat ≠ 13)
    (hlook : lookupRedirect url = some target)
    (hfile : isfile target = true) :
    splitHB (moved_temporarily isfile fdata date url).1 =
      (linesBlock (List.map encode [strLit "HTTP/1.1 302 Moved Temporarily",
        strLit "Location: http://" ++ target,
        strLit "Date: " ++ date,
        strLit "Content-Length: " ++ natToDigits (fdata target).length,
        strLit "Content-Type: text/html"]),
       fdata target) := by
  have htv := lookupRedirect_target hlook
  have hget : (lookupRedirect url).getD [] = target := by rw [hlook]; rfl
  have h1 : (moved_temporarily isfile fdata date url).1 =
      encode (STATUS_CODE 302 ++ (strLit "Location: http://" ++ target ++
        strLit "\r\n") ++ get_http_header date (fdata target).length target) ++
        fdata target := by
    simp only [moved_temporarily, hget, hfile]
    simp
  have hft : fileTypeOf target = strLit "html" := by
    subst htv; decide
  have hhd : get_http_header date (fdata target).length target =
      linesStr [strLit "Date: " ++ date,
        strLit "Content-Length: " ++ natToDigits (fdata target).length,
        strLit "Content-Type: text/html"] := by
    simp only [get_http_header, hft]
    rw [if_pos (Or.inl trivial)]
    rw [show strLit "Content-Type: text/html\r\n\r\n" =
      strLit "Content-Type: text/html" ++ strLit "\r\n" ++ strLit "\r\n" by decide]
    simp [linesStr, List.append_assoc]
  have h2 : STATUS_CODE 302 ++ (strLit "Location: http://" ++ target ++
      strLit "\r\n") ++ get_http_header date (fdata target).length target =
      linesStr [strLit "HTTP/1.1 302 Moved Temporarily",
        strLit "Location: http://" ++ target,
        strLit "Date: " ++ date,
        strLit "Content-Length: " ++ natToDigits (fdata target).length,
        strLit "Content-Type: text/html"] := by
    rw [hhd]
    rw [show STATUS_CODE 302 =
      strLit "HTTP/1.1 302 Moved Temporarily" ++ strLit "\r\n" by decide]
    simp [linesStr, List.append_assoc]
  rw [h1, h2]
  apply splitHB_encode_lines
  · simp
  · intro l hl
    simp only [List.mem_cons, List.mem_singleton, List.not_mem_nil, or_false] at hl
    rcases hl with rfl | rfl | rfl | rfl | rfl
    · exact ⟨by decide, by decide⟩
    · subst htv; exact ⟨by decide, by decide⟩
    · exact dateLine_good hdate
    · exact clLine_good _
    · exact ⟨by decide, by decide⟩

/-- Claim C9's property for one response `(sent bytes, status)`: the header
block (everything up to the first blank line) contains a Content-Length
line whose value is the number of body bytes following the header block. -/
def contentLengthCorrect (resp : List Nat × Nat) : Prop :=
  containsSub
    (encode (strLit "Content-Length: " ++
      natToDigits (splitHB resp.1).2.length ++ strLit "\r\n"))
    (splitHB resp.1).1 = true

theorem clCorrect_of_split {resp : List Nat × Nat} (pre rest : List (List Nat))
    {body : List Nat}
    (h : splitHB resp.1 =
      (linesBlock (pre ++
        encode (strLit "Content-Length: " ++ natToDigits body.length) :: rest),
       body)) :
    contentLengthCorrect resp := by
  unfold contentLengthCorrect
  rw [h]
  rw [encode_append, encode_crlf]
  exact linesBlock_contains pre _ rest

/-- C9 (amended): every response built with a recognized file type — 200
with a file or computed body, 302, 404 and 500 (its message being the ASCII
text the server passes) — contains a Content-Length header equal to the
number of body bytes following the header block.  (For an unrecognized file
extension the header block is never terminated, see the counterexample.) -/
theorem c9_content_length_headers
    (isfile : List Char → Bool) (fdata : List Char → List Nat)
    (date msg : List Char) (data : List Nat) (url rurl target : List Char)
    (hdate : ∀ c ∈ date, c.toNat ≠ 13)
    (hmsg : ∀ c ∈ msg, c.toNat < 128 ∧ c.toNat ≠ 13)
    (hrec : recognizedType (fileTypeOf url) = true)
    (hlook : lookupRedirect rurl = some target)
    (hfile : isfile target = true) :
    contentLengthCorrect (ok fdata date data url) ∧
    contentLengthCorrect (not_found date) ∧
    contentLengthCorrect (internal_server_error date msg) ∧
    contentLengthCorrect (moved_temporarily isfile fdata date rurl) := by
  refine ⟨?_, ?_, ?_, ?_⟩
  · obtain ⟨ct, h⟩ := ok_split fdata date data url hdate hrec
    exact clCorrect_of_split
      [encode (strLit "HTTP/1.1 200 OK"), encode (strLit "Date: " ++ date)]
      (List.map encode ct) h
  · have h := not_found_split date hdate
    have e : (encode (strLit "404 Not Found\r\n")).length = 15 := by decide
    rw [show (15 : Nat) = (encode (strLit "404 Not Found\r\n")).length
      from e.symm] at h
    exact clCorrect_of_split
      [encode (strLit "HTTP/1.1 404 Not Found"), encode (strLit "Date: " ++ date)]
      [encode (strLit "Content-Type: text/html")] h
  · have hlen : (encode msg).length = msg.length :=
      encode_ascii_length (fun c hc => (hmsg c hc).1)
    have h := ise_split date msg hdate (fun c hc => (hmsg c hc).2)
    rw [← hlen] at h
    exact clCorrect_of_split
      [encode (strLit "HTTP/1.1 500 Internal Server Error"),
       encode (strLit "Date: " ++ date)]
      [encode (strLit "Content-Type: text/html")] h
  · have h := moved_split isfile fdata date rurl target hdate hlook hfile
    exact clCorrect_of_split
      [encode (strLit "HTTP/1.1 302 Moved Temporarily"),
       encode (strLit "Location: http://" ++ target),
       encode (strLit "Date: " ++ date)]
      [encode (strLit "Content-Type: text/html")] h

/-- C9 witness: the amended theorem applied at concrete inputs. -/
theorem c9_content_length_headers_witness :
    contentLengthCorrect
      (ok (fun _ => [104, 105]) (strLit "D") [104] (strLit "webroot/i.html")) ∧
    contentLengthCorrect (not_found (strLit "D")) ∧
    contentLengthCorrect (internal_server_error (strLit "D") (strLit "Bad")) ∧
    contentLengthCorrect
      (moved_temporarily (fun _ => true) (fun _ => [104, 105]) (strLit "D")
        (strLit "home")) :=
  c9_content_length_headers (fun _ => true) (fun _ => [104, 105]) (strLit "D")
    (strLit "Bad") [104] (strLit "webroot/i.html") (strLit "home")
    (strLit "webroot/index.html")
    (by decide) (by decide) (by decide) (by decide) (by decide)

/-- C9 counterexample: a 200 response for an existing file with an
unrecognized extension (`a.xyz`, content `hello`) announces
`Content-Length: 5` but its header block is never terminated by a blank
line, so no body follows any header block and the claimed equality fails. -/
theorem c9_counterexample :
    (handle_client_request (fun _ => true) (fun _ => encode (strLit "hello"))
        (strLit "D") (strLit "a.xyz")).2 = 200 ∧
    containsSub (encode (strLit "Content-Length: 5\r\n"))
      (handle_client_request (fun _ => true) (fun _ => encode (strLit "hello"))
        (strLit "D") (strLit "a.xyz")).1 = true ∧
    containsSub [13, 10, 13, 10]
      (handle_client_request (fun _ => true) (fun _ => encode (strLit "hello"))
        (strLit "D") (strLit "a.xyz")).1 = false ∧
    ¬ contentLengthCorrect
      (handle_client_request (fun _ => true) (fun _ => encode (strLit "hello"))
        (strLit "D") (strLit "a.xyz")) := by
  unfold contentLengthCorrect
  decide

theorem ok_empty_split (fdata : List Char → List Nat) (date : List Char)
    (data : List Nat) (hdate : ∀ c ∈ date, c.toNat ≠ 13) :
    splitHB (ok fdata date data []).1 =
      (linesBlock (List.map encode [strLit "HTTP/1.1 200 OK",
        strLit "Date: " ++ date,
        strLit "Content-Length: " ++ natToDigits data.length,
        strLit "Content-Type: text/html"]),
       data) := by
  have h0 : okData fdata data [] = data := by simp [okData]
  have h1 : (ok fdata date data []).1 =
      encode (STATUS_CODE 200 ++ get_http_header date data.length []) ++ data := by
    rw [ok_eq, h0]
  have h2 : STATUS_CODE 200 ++ get_http_header date data.length [] =
      linesStr [strLit "HTTP/1.1 200 OK",
        strLit "Date: " ++ date,
        strLit "Content-Length: " ++ natToDigits data.length,
        strLit "Content-Type: text/html"] := by
    rw [get_http_header_empty]
    rw [show STATUS_CODE 200 = strLit "HTTP/1.1 200 OK" ++ strLit "\r\n" by decide]
    simp [linesStr, List.append_assoc]
  rw [h1, h2]
  apply splitHB_encode_lines
  · simp
  · intro l hl
    simp only [List.mem_cons, List.mem_singleton, List.not_mem_nil, or_false] at hl
    rcases hl with rfl | rfl | rfl | rfl
    · exact ⟨by decide, by decide⟩
    · exact dateLine_good hdate
    · exact clLine_good _
    · exact ⟨by decide, by decide⟩

/-- C10: every 200 response that carries a computed-endpoint result has the
header `Content-Type: text/html` in its header block: `calculate_area`
invokes the response builder with an empty path and an empty path is typed
as html. -/
theorem c10_computed_content_type (date request : List Char)
    (hdate : ∀ c ∈ date, c.toNat ≠ 13)
    (h200 : (calculate_area date request).2 = 200) :
    containsSub (encode (strLit "Content-Type: text/html\r\n"))
      (splitHB (calculate_area date request).1).1 = true := by
  by_cases hp : (pySplitOn '&' (lastD (pySplitOn '?' request))).length = 2
  · by_cases hn :
      (!pyIsNumeric (lastD (pySplitOn '='
          ((pySplitOn '&' (lastD (pySplitOn '?' request))).getD 0 []))) ||
       !pyIsNumeric (lastD (pySplitOn '='
          ((pySplitOn '&' (lastD (pySplitOn '?' request))).getD 1 [])))) = true
    · have h500 : (calculate_area date request).2 = 500 := by
        simp only [calculate_area]
        rw [if_neg (not_not_intro hp), if_pos hn]
        rfl
      rw [h500] at h200
      exact absurd h200 (by decide)
    · have hcalc : calculate_area date request =
          ok (fun _ => []) date
            (encode (areaStr
              (pyInt (lastD (pySplitOn '='
                ((pySplitOn '&' (lastD (pySplitOn '?' request))).getD 0 []))))
              (pyInt (lastD (pySplitOn '='
                ((pySplitOn '&' (lastD (pySplitOn '?' request))).getD 1 []))))))
            [] := by
        simp only [calculate_area]
        rw [if_neg (not_not_intro hp), if_neg hn]
      rw [hcalc, ok_empty_split _ _ _ hdate]
      rw [show strLit "Content-Type: text/html\r\n" =
        strLit "Content-Type: text/html" ++ strLit "\r\n" by decide]
      rw [encode_append, encode_crlf]
      exact linesBlock_contains [encode (strLit "HTTP/1.1 200 OK"),
        encode (strLit "Date: " ++ date),
        encode (strLit "Content-Length: " ++ natToDigits _)] _ []
  · have h500 : (calculate_area date request).2 = 500 := by
      simp only [calculate_area]
      rw [if_pos hp]
      rfl
    rw [h500] at h200
    exact absurd h200 (by decide)

/-- C10 witness: the computed request `height=3&width=4` at date `D`. -/
theorem c10_computed_content_type_witness :
    containsSub (encode (strLit "Content-Type: text/html\r\n"))
      (splitHB (calculate_area (strLit "D")
        (strLit "calculate-area?height=3&width=4")).1).1 = true :=
  c10_computed_content_type (strLit "D")
    (strLit "calculate-area?height=3&width=4") (by decide) (by decide)

/-! ### Status codes of the individual builders -/

theorem not_found_snd (date : List Char) : (not_found date).2 = 404 := rfl

theorem ise_snd (date msg : List Char) :
    (internal_server_error date msg).2 = 500 := rfl

theorem ok_snd (fdata : List Char → List Nat) (date : List Char)
    (data : List Nat) (url : List Char) : (ok fdata date data url).2 = 200 := rfl

theorem moved_snd (isfile : List Char → Bool) (fdata : List Char → List Nat)
    (date url : List Char) :
    (moved_temporarily isfile fdata date url).2 = 404 ∨
      (moved_temporarily isfile fdata date url).2 = 302 := by
  simp only [moved_temporarily]
  split
  · left; rfl
  · right; rfl

theorem calculate_area_snd (date request : List Char) :
    (calculate_area date request).2 = 500 ∨
      (calculate_area date request).2 = 200 := by
  simp only [calculate_area]
  split
  · left; rfl
  · split
    · left; rfl
    · right; rfl

/-! ### Claim C8 -/

/-- C8: no value of the static redirection dictionary is itself a key of
the dictionary, so a redirect can never chain into another redirect. -/
theorem c8_no_redirect_chain :
    REDIRECTION_DICTIONARY.all (fun kv => (lookupRedirect kv.2).isNone) = true := by
  decide

/-! ### Claim C5 -/

/-- C5 counterexample: the Arabic-Indic digit ٣ (U+0663) is not an ASCII
decimal digit, yet a two-parameter computed request carrying it as the
height is accepted (Python `str.isnumeric` is true on it) and answered with
200, not with the claimed 500. -/
theorem c5_counterexample :
    (('٣' : Char).toNat < 48 ∨ 57 < ('٣' : Char).toNat) ∧
    (calculate_area (strLit "D")
      (strLit "calculate-area?height=٣&width=2")).2 = 200 := by
  decide

/-- C5 (amended): for a computed request (over characters where the Unicode
model is exact) with exactly two parameters, if either value fails Python
`str.isnumeric` — empty, or containing a character with no numeric value;
for ASCII text that is anything other than the digits 0–9 — the server
sends a 500 response whose body is the message naming the violation, and
the returned code is the HTTP status 500, not the close-server code, so
the connection loop continues.  Values made of non-ASCII decimal digits
pass the check instead (see the counterexample). -/
theorem c5_invalid_value_500 (date request : List Char)
    (hdate : ∀ c ∈ date, c.toNat ≠ 13)
    (hmod : ∀ c ∈ request, modelledChar c = true)
    (hp : (pySplitOn '&' (lastD (pySplitOn '?' request))).length = 2)
    (hn : pyIsNumeric (lastD (pySplitOn '='
            ((pySplitOn '&' (lastD (pySplitOn '?' request))).getD 0 []))) = false ∨
          pyIsNumeric (lastD (pySplitOn '='
            ((pySplitOn '&' (lastD (pySplitOn '?' request))).getD 1 []))) = false) :
    calculate_area date request =
      internal_server_error date
        (strLit "Not numeric value for height or width") ∧
    (calculate_area date request).2 = 500 ∧
    (calculate_area date request).2 ≠ CLOSE_SERVER_STATUS_CODE ∧
    (splitHB (calculate_area date request).1).2 =
      encode (strLit "Not numeric value for height or width") := by
  have heq : calculate_area date request =
      internal_server_error date
        (strLit "Not numeric value for height or width") := by
    simp only [calculate_area]
    rw [if_neg (not_not_intro hp),
      if_pos (by rcases hn with h | h <;> rw [h] <;> simp)]
  have h500 : (internal_server_error date
      (strLit "Not numeric value for height or width")).2 = 500 := rfl
  refine ⟨heq, by rw [heq, h500], by rw [heq, h500]; decide, ?_⟩
  rw [heq,
    ise_split date (strLit "Not numeric value for height or width") hdate
      (by decide)]

/-- C5 witness: the request `height=a&width=2` at date `D`. -/
theorem c5_invalid_value_500_witness :
    calculate_area (strLit "D") (strLit "calculate-area?height=a&width=2") =
      internal_server_error (strLit "D")
        (strLit "Not numeric value for height or width") ∧
    (calculate_area (strLit "D")
      (strLit "calculate-area?height=a&width=2")).2 = 500 ∧
    (calculate_area (strLit "D")
      (strLit "calculate-area?height=a&width=2")).2 ≠ CLOSE_SERVER_STATUS_CODE ∧
    (splitHB (calculate_area (strLit "D")
      (strLit "calculate-area?height=a&width=2")).1).2 =
      encode (strLit "Not numeric value for height or width") :=
  c5_invalid_value_500 (strLit "D") (strLit "calculate-area?height=a&width=2")
    (by decide) (by decide) (by decide) (by decide)

/-! ### Claim C6 -/

/-- C6: a request whose normalized and prefixed path is a key of the
redirection dictionary whose mapped target is not a file at the content
resolver is answered with the 404 response — status 404 and literal body
`404 Not Found\r\n` — and not with a 302. -/
theorem c6_redirect_missing_target_404
    (isfile : List Char → Bool) (fdata : List Char → List Nat)
    (date resource target : List Char)
    (hdate : ∀ c ∈ date, c.toNat ≠ 13)
    (hexit : List.isSuffixOf (strLit "exit") (normalize_url resource) = false)
    (hlook : lookupRedirect (prefixed_url (normalize_url resource)) = some target)
    (hfile : isfile target = false) :
    handle_client_request isfile fdata date resource = not_found date ∧
    (handle_client_request isfile fdata date resource).2 = 404 ∧
    (handle_client_request isfile fdata date resource).2 ≠ 302 ∧
    (splitHB (handle_client_request isfile fdata date resource).1).2 =
      encode (strLit "404 Not Found\r\n") := by
  have heq : handle_client_request isfile fdata date resource = not_found date := by
    simp only [handle_client_request]
    rw [if_neg (by simp [hexit])]
    rw [if_pos (by simp [hlook])]
    simp only [moved_temporarily, hlook, Option.getD_some]
    rw [if_pos (by simp [hfile])]
  have h404 : (not_found date).2 = 404 := rfl
  refine ⟨heq, by rw [heq, h404], by rw [heq, h404]; decide, ?_⟩
  rw [heq, not_found_split date hdate]

/-- C6 witness: the route-table key `home` with an empty filesystem. -/
theorem c6_redirect_missing_target_404_witness :
    handle_client_request (fun _ => false) (fun _ => []) (strLit "D")
      (strLit "home") = not_found (strLit "D") ∧
    (handle_client_request (fun _ => false) (fun _ => []) (strLit "D")
      (strLit "home")).2 = 404 ∧
    (handle_client_request (fun _ => false) (fun _ => []) (strLit "D")
      (strLit "home")).2 ≠ 302 ∧
    (splitHB (handle_client_request (fun _ => false) (fun _ => []) (strLit "D")
      (strLit "home")).1).2 = encode (strLit "404 Not Found\r\n") :=
  c6_redirect_missing_target_404 (fun _ => false) (fun _ => []) (strLit "D")
    (strLit "home") (strLit "webroot/index.html")
    (by decide) (by decide) (by decide) (by decide)

/-! ### Claim C3 -/

/-- C3 counterexample: the target `myexit` — whose final normalized segment
is `myexit`, not the terminate keyword `exit` — still terminates the
server, because the source tests `url.endswith("exit")`, a suffix test on
the whole path, not an equality of the final segment. -/
theorem c3_counterexample :
    lastSegment (prefixed_url (normalize_url (strLit "myexit"))) ≠
      strLit "exit" ∧
    handle_client_request (fun _ => false) (fun _ => []) (strLit "D")
      (strLit "myexit") = ([], CLOSE_SERVER_STATUS_CODE) := by
  decide

/-- C3 (amended): the router produces the terminate outcome exactly when
the normalized path (after default-substitution and slash-stripping,
before prefixing) ends with the character sequence `exit` — a suffix test,
not an equality of the final segment — and the test precedes the prefixing
and redirection logic, so it fires for any resource whose normalization
ends in `exit`, with or without the webroot prefix. -/
theorem c3_terminate_iff (isfile : List Char → Bool)
    (fdata : List Char → List Nat) (date resource : List Char) :
    (handle_client_request isfile fdata date resource).2 =
        CLOSE_SERVER_STATUS_CODE ↔
      List.isSuffixOf (strLit "exit") (normalize_url resource) = true := by
  constructor
  · intro h
    by_contra hex
    have hex' : List.isSuffixOf (strLit "exit") (normalize_url resource) =
        false := by
      cases hsuf : List.isSuffixOf (strLit "exit") (normalize_url resource)
      · rfl
      · exact absurd hsuf hex
    simp only [handle_client_request, hex'] at h
    simp only [Bool.false_eq_true, if_false] at h
    split at h
    · rcases moved_snd isfile fdata date
          (prefixed_url (normalize_url resource)) with hs | hs <;>
        rw [h] at hs <;> exact absurd hs (by decide)
    · split at h
      · rcases calculate_area_snd date
            (lastSegment (prefixed_url (normalize_url resource))) with hs | hs <;>
          rw [h] at hs <;> exact absurd hs (by decide)
      · split at h
        · rw [not_found_snd] at h
          exact absurd h (by decide)
        · rw [ok_snd] at h
          exact absurd h (by decide)
  · intro h
    simp only [handle_client_request, h]
    rfl

/-! ### Claim C4 -/

theorem all_eq_replicate {ch : Char} :
    ∀ {l : List Char}, (∀ x ∈ l, x = ch) → l = List.replicate l.length ch := by
  intro l
  induction l with
  | nil => intro _; rfl
  | cons x t ih =>
    intro h
    have hx : x = ch := h x (by simp)
    rw [List.length_cons, List.replicate_succ, hx,
      ← ih (fun y hy => h y (by simp [hy]))]

theorem head?_dropWhile_false {p : Char → Bool} :
    ∀ (l : List Char) {hd : Char},
      (l.dropWhile p).head? = some hd → p hd = false := by
  intro l
  induction l with
  | nil => intro hd h; simp [List.dropWhile] at h
  | cons x t ih =>
    intro hd h
    rw [List.dropWhile_cons] at h
    split at h
    · exact ih h
    · rename_i hx
      simp only [List.head?_cons, Option.some_inj] at h
      subst h
      simpa using hx

/-- The decomposition realized by Python `s.strip(ch)`: the whole string is
a run of `ch`, then the stripped core (which neither starts nor ends with
`ch`), then another run of `ch`. -/
theorem stripAll_decomp (ch : Char) (s : List Char) :
    (∃ a b, s = List.replicate a ch ++ stripAll ch s ++ List.replicate b ch) ∧
    (∀ hd, (stripAll ch s).head? = some hd → hd ≠ ch) ∧
    (∀ lst, (stripAll ch s).getLast? = some lst → lst ≠ ch) := by
  have h1 : s.takeWhile (· == ch) ++ s.dropWhile (· == ch) = s :=
    List.takeWhile_append_dropWhile (· == ch) s
  have htake : s.takeWhile (· == ch) =
      List.replicate (s.takeWhile (· == ch)).length ch :=
    all_eq_replicate (fun x hx => by
      have := List.mem_takeWhile_imp hx
      simpa using this)
  have h2 : (s.dropWhile (· == ch)).reverse.takeWhile (· == ch) ++
      (s.dropWhile (· == ch)).reverse.dropWhile (· == ch) =
      (s.dropWhile (· == ch)).reverse :=
    List.takeWhile_append_dropWhile (· == ch) _
  have h3 : s.dropWhile (· == ch) =
      stripAll ch s ++
        ((s.dropWhile (· == ch)).reverse.takeWhile (· == ch)).reverse := by
    conv_lhs => rw [← List.reverse_reverse (s.dropWhile (· == ch)), ← h2]
    rw [List.reverse_append]
    rfl
  have hrep : ((s.dropWhile (· == ch)).reverse.takeWhile (· == ch)).reverse =
      List.replicate
        ((s.dropWhile (· == ch)).reverse.takeWhile (· == ch)).reverse.length
        ch :=
    all_eq_replicate (fun x hx => by
      have := List.mem_takeWhile_imp (List.mem_reverse.1 hx)
      simpa using this)
  refine ⟨⟨(s.takeWhile (· == ch)).length,
    ((s.dropWhile (· == ch)).reverse.takeWhile (· == ch)).reverse.length,
    ?_⟩, ?_, ?_⟩
  · conv_lhs => rw [← h1, htake, h3, hrep]
    simp [List.append_assoc]
  · intro hd hhd
    have hmem : (s.dropWhile (· == ch)).head? = some hd := by
      rcases hcore : stripAll ch s with _ | ⟨c, t⟩
      · rw [hcore] at hhd; simp at hhd
      · rw [hcore] at hhd
        simp only [List.head?_cons, Option.some_inj] at hhd
        subst hhd
        rw [h3, hcore]
        rfl
    have := head?_dropWhile_false s hmem
    simpa using this
  · intro lst hlst
    have hrev : (stripAll ch s).reverse =
        (s.dropWhile (· == ch)).reverse.dropWhile (· == ch) := by
      unfold stripAll
      rw [List.reverse_reverse]
    have hhead : ((s.dropWhile (· == ch)).reverse.dropWhile
        (· == ch)).head? = some lst := by
      rw [← hrev, List.head?_reverse, hlst]
    have := head?_dropWhile_false (s.dropWhile (· == ch)).reverse hhead
    simpa using this

/-- C4 counterexample: the claim predicts that `/a/` normalizes to `a/`
(one leading slash stripped, trailing slash preserved); the source's
`strip('/')` strips both ends and yields `a`. -/
theorem c4_counterexample :
    normalize_url (strLit "/a/") = strLit "a" ∧
    claimNormalize (strLit "/a/") = strLit "a/" ∧
    normalize_url (strLit "/a/") ≠ claimNormalize (strLit "/a/") ∧
    normalize_url (strLit "//a") = strLit "a" ∧
    claimNormalize (strLit "//a") = strLit "/a" := by
  decide

/-- C4 (amended): for every target equal to the empty string or `/`, the
configured default path is substituted; every other target is stripped of
ALL its leading and ALL its trailing slash characters (interior slashes
are preserved) — not of exactly one leading slash — and the webroot
prefix is then prepended exactly when the normalized path does not
already carry it, so the prefixed path always carries it. -/
theorem c4_normalization (resource : List Char) :
    (resource = [] ∨ resource = ['/'] →
      normalize_url resource = DEFAULT_URL) ∧
    (resource ≠ [] → resource ≠ ['/'] →
      (∃ a b, resource =
        List.replicate a '/' ++ normalize_url resource ++
          List.replicate b '/') ∧
      (∀ hd, (normalize_url resource).head? = some hd → hd ≠ '/') ∧
      (∀ lst, (normalize_url resource).getLast? = some lst → lst ≠ '/')) ∧
    (List.isPrefixOf (strLit "webroot/") (normalize_url resource) = true →
      prefixed_url (normalize_url resource) = normalize_url resource) ∧
    (List.isPrefixOf (strLit "webroot/") (normalize_url resource) = false →
      prefixed_url (normalize_url resource) =
        strLit "webroot/" ++ normalize_url resource) ∧
    List.isPrefixOf (strLit "webroot/")
      (prefixed_url (normalize_url resource)) = true := by
  refine ⟨?_, ?_, ?_, ?_, ?_⟩
  · intro h
    unfold normalize_url
    rw [if_pos h]
  · intro h1 h2
    have hn : normalize_url resource = stripAll '/' resource := by
      unfold normalize_url
      rw [if_neg (by simp [h1, h2])]
    rw [hn]
    exact stripAll_decomp '/' resource
  · intro h
    unfold prefixed_url
    rw [if_pos h]
  · intro h
    unfold prefixed_url
    rw [if_neg (by simp [h])]
  · unfold prefixed_url
    split
    · rename_i h
      exact h
    · exact isPrefixOf_append_right _ _

/-- C4 witness: the amended statement instantiated at the empty target,
at `/`, at `/a/` (prefix absent) and at `webroot/home` (prefix present). -/
theorem c4_normalization_witness :
    normalize_url ([] : List Char) = DEFAULT_URL ∧
    normalize_url (strLit "/") = DEFAULT_URL ∧
    (∃ a b, strLit "/a/" =
      List.replicate a '/' ++ normalize_url (strLit "/a/") ++
        List.replicate b '/') ∧
    prefixed_url (normalize_url (strLit "/a/")) =
      strLit "webroot/" ++ normalize_url (strLit "/a/") ∧
    prefixed_url (normalize_url (strLit "webroot/home")) =
      normalize_url (strLit "webroot/home") :=
  ⟨(c4_normalization []).1 (Or.inl rfl),
   (c4_normalization (strLit "/")).1 (Or.inr rfl),
   ((c4_normalization (strLit "/a/")).2.1 (by decide) (by decide)).1,
   (c4_normalization (strLit "/a/")).2.2.2.1 (by decide),
   (c4_normalization (strLit "webroot/home")).2.2.1 (by decide)⟩

/-! ### Claims C1 and C7: the request parser -/

theorem firstLine_no_cr : ∀ {l : List Char}, (∀ c ∈ l, c ≠ '\r') →
    firstLine l = l := by
  intro l
  induction l with
  | nil => intro _; rfl
  | cons c t ih =>
    intro h
    have hc : c ≠ '\r' := h c (by simp)
    simp [firstLine, hc, ih (fun d hd => h d (by simp [hd]))]

theorem pySplitAux_token :
    ∀ (t rest acc : List Char), (∀ c ∈ t, pyIsSpace c = false) →
      pySplitAux (t ++ rest) acc = pySplitAux rest (t.reverse ++ acc) := by
  intro t
  induction t with
  | nil => intro rest acc _; simp
  | cons c t ih =>
    intro rest acc h
    have hc : pyIsSpace c = false := h c (by simp)
    simp only [List.cons_append, pySplitAux, hc, Bool.false_eq_true, if_false,
      List.append_eq]
    rw [ih rest (c :: acc) (fun d hd => h d (by simp [hd]))]
    simp

theorem pySplitAux_flush (c : Char) (rest acc : List Char)
    (hc : pyIsSpace c = true) (hacc : acc ≠ []) :
    pySplitAux (c :: rest) acc = acc.reverse :: pySplitAux rest [] := by
  simp only [pySplitAux, hc, if_true]
  rw [if_neg hacc]

/-- Tokenization of a well-formed request line `GET <p> HTTP/1.1` where the
path `p` is non-empty and free of whitespace. -/
theorem pySplitWs_request (p : List Char) (hne : p ≠ [])
    (hws : ∀ c ∈ p, pyIsSpace c = false) :
    pySplitWs (strLit "GET " ++ p ++ strLit " HTTP/1.1") =
      [strLit "GET", p, strLit "HTTP/1.1"] := by
  have hjoin : strLit "GET " ++ p ++ strLit " HTTP/1.1" =
      strLit "GET" ++ (' ' :: (p ++ (' ' :: strLit "HTTP/1.1"))) := rfl
  unfold pySplitWs
  rw [hjoin, pySplitAux_token (strLit "GET") _ [] (by decide)]
  rw [pySplitAux_flush ' ' _ _ (by decide) (by decide)]
  rw [pySplitAux_token p _ [] hws]
  rw [pySplitAux_flush ' ' _ _ (by decide) (by simp [hne])]
  rw [show pySplitAux (strLit "HTTP/1.1") ([] : List Char) =
    [strLit "HTTP/1.1"] by decide]
  simp

/-- C7 counterexample: the empty path contains no whitespace, but the line
`GET  HTTP/1.1` it produces has only two tokens, so the parser rejects it
rather than returning ok with an empty target. -/
theorem c7_counterexample :
    validate_http_request (strLit "GET " ++ ([] : List Char) ++
      strLit " HTTP/1.1") = (false, []) := by
  decide

/-- C7 (amended): for every NON-EMPTY path `p` with no whitespace
character, parsing `GET <p> HTTP/1.1` succeeds with the target equal to
`p` verbatim — query string included, no normalization — (the first token
being `GET` carries the method). -/
theorem c7_parse_valid (p : List Char) (hne : p ≠ [])
    (hws : ∀ c ∈ p, pyIsSpace c = false) :
    validate_http_request (strLit "GET " ++ p ++ strLit " HTTP/1.1") =
      (true, p) := by
  have hnocr : ∀ c ∈ strLit "GET " ++ p ++ strLit " HTTP/1.1", c ≠ '\r' := by
    intro c hc
    rcases List.mem_append.1 hc with hc | hc
    · rcases List.mem_append.1 hc with hc | hc
      · exact (by decide : ∀ c ∈ strLit "GET ", c ≠ '\r') c hc
      · intro hcr
        subst hcr
        have := hws _ hc
        rw [show pyIsSpace '\r' = true by decide] at this
        exact absurd this (by decide)
    · exact (by decide : ∀ c ∈ strLit " HTTP/1.1", c ≠ '\r') c hc
  have hfl : firstLine (strLit "GET " ++ p ++ strLit " HTTP/1.1") =
      strLit "GET " ++ p ++ strLit " HTTP/1.1" := firstLine_no_cr hnocr
  have hpre : List.isPrefixOf (strLit "GET")
      (strLit "GET " ++ p ++ strLit " HTTP/1.1") = true := by
    rw [show strLit "GET " ++ p ++ strLit " HTTP/1.1" =
      strLit "GET" ++ (' ' :: (p ++ (' ' :: strLit "HTTP/1.1"))) from rfl]
    exact isPrefixOf_append_right _ _
  have hsplit := pySplitWs_request p hne hws
  have hg2 : ([strLit "GET", p, strLit "HTTP/1.1"] : List (List Char)).getD 2
      [] = strLit "HTTP/1.1" := rfl
  simp only [validate_http_request, hfl, hsplit, hpre]
  rw [if_neg (by simp), if_neg (by simp), hg2, if_neg (by decide)]
  rfl

/-- C7 witness: the path `/index.html?x=1`. -/
theorem c7_parse_valid_witness :
    validate_http_request (strLit "GET " ++ strLit "/index.html?x=1" ++
      strLit " HTTP/1.1") = (true, strLit "/index.html?x=1") :=
  c7_parse_valid (strLit "/index.html?x=1") (by decide) (by decide)

/-- C1 counterexample: the line `GETX / HTTP/1.1` has first token `GETX`,
which is not `GET`, yet the parser accepts it, because the source tests
`first_line.startswith('GET')` — a prefix test on the whole line, not an
equality of the first token. -/
theorem c1_counterexample :
    (pySplitWs (firstLine (strLit "GETX / HTTP/1.1"))).getD 0 [] =
      strLit "GETX" ∧
    strLit "GETX" ≠ strLit "GET" ∧
    validate_http_request (strLit "GETX / HTTP/1.1") = (true, strLit "/") := by
  decide

/-- C1 (amended): parsing succeeds iff the first CR LF-terminated line
begins with the three characters `GET` (a prefix test on the line — not:
iff its first token is exactly `GET`), splits into exactly three
whitespace-separated tokens, and the third token contains `HTTP`. -/
theorem c1_parse_ok_iff (r : List Char) :
    (validate_http_request r).1 = true ↔
      (List.isPrefixOf (strLit "GET") (firstLine r) = true ∧
       (pySplitWs (firstLine r)).length = 3 ∧
       containsSub (strLit "HTTP") ((pySplitWs (firstLine r)).getD 2 []) =
         true) := by
  simp only [validate_http_request]
  split_ifs with h1 h2 h3 <;> simp_all

end HS
